import Mathlib

/-
Verification of the MCP SSE test server (`src/server/index.ts`) and its
client/test harness. The definitions below are a shallow embedding of the
TypeScript sources: the server's shared mutable closure state becomes an
explicit state record, the request handlers become pure state-passing
functions, and the long-running handlers' async loops become structural
recursion over the remaining step count with the abort signal modelled as
the boolean value observed at each loop checkpoint.
-/

namespace McpTsTests

/-- The eight severities, in the array order of `levels` in src/server/index.ts. -/
inductive LoggingLevel where
  | debug
  | info
  | notice
  | warning
  | error
  | critical
  | alert
  | emergency
deriving DecidableEq, BEq

/-- The `levels` array: `['debug','info','notice','warning','error','critical','alert','emergency']`. -/
def levels : List LoggingLevel :=
  [.debug, .info, .notice, .warning, .error, .critical, .alert, .emergency]

/-- The same array at the wire level, as the strings a request can carry. -/
def levelNames : List String :=
  ["debug", "info", "notice", "warning", "error", "critical", "alert", "emergency"]

/-- Parse a wire-level level string; succeeds exactly on the eight names of
`levelNames`, mirroring the string comparison done by `levels.includes`. -/
def parseLevel (s : String) : Option LoggingLevel :=
  if s = "debug" then some .debug
  else if s = "info" then some .info
  else if s = "notice" then some .notice
  else if s = "warning" then some .warning
  else if s = "error" then some .error
  else if s = "critical" then some .critical
  else if s = "alert" then some .alert
  else if s = "emergency" then some .emergency
  else none

/-- Severity rank written out from the spec's fixed order
debug < info < notice < warning < error < critical < alert < emergency. -/
def severityRankSpec : LoggingLevel → Nat
  | .debug => 0
  | .info => 1
  | .notice => 2
  | .warning => 3
  | .error => 4
  | .critical => 5
  | .alert => 6
  | .emergency => 7

/-- Outcome of a request handler: an empty-object success (`return {}`)
or a JSON-RPC error with a code and message. -/
inductive RpcOutcome where
  | ok
  | rpcError (code : Int) (message : String)
deriving DecidableEq

/-- True exactly on the error outcome. -/
def isErrorOutcome : RpcOutcome → Bool
  | .ok => false
  | .rpcError _ _ => true

/-- The mutable closure state of `startServer`: the `subscribedResources`
set and the `currentLogLevel` variable, shared by every transport the
server accepts. -/
structure ServerSharedState where
  subscribedResources : List String
  currentLogLevel : LoggingLevel
deriving DecidableEq

/-- State at server start: no subscriptions, level `'info'`. -/
def initialServerState : ServerSharedState :=
  { subscribedResources := [], currentLogLevel := .info }

/-- The `SetLevelRequestSchema` handler: if `levels.includes(req.params.level)`
the threshold is assigned, otherwise nothing happens; either way `{}` is
returned. -/
def setLevelHandler (level : String) (st : ServerSharedState) :
    ServerSharedState × RpcOutcome :=
  match parseLevel level with
  | some l => ({ st with currentLogLevel := l }, .ok)
  | none => (st, .ok)

/-- The `SubscribeRequestSchema` handler: `subscribedResources.add(req.params.uri)`
then `return {}` (set semantics: adding a present element is a no-op). -/
def subscribeHandler (uri : String) (st : ServerSharedState) :
    ServerSharedState × RpcOutcome :=
  if uri ∈ st.subscribedResources then (st, .ok)
  else ({ st with subscribedResources := uri :: st.subscribedResources }, .ok)

/-- The `UnsubscribeRequestSchema` handler: `subscribedResources.delete(req.params.uri)`
then `return {}`. -/
def unsubscribeHandler (uri : String) (st : ServerSharedState) :
    ServerSharedState × RpcOutcome :=
  ({ st with subscribedResources := st.subscribedResources.filter (fun u => u != uri) }, .ok)

/-- A log record as passed to `sendLoggingMessage`: level, logger, data. -/
structure LogRecord where
  level : LoggingLevel
  logger : String
  data : String
deriving DecidableEq

/-- A notification actually put on the wire by the gated senders. -/
inductive Delivered where
  | logMessage (record : LogRecord)
  | resourceUpdated (uri : String)
deriving DecidableEq

/-- The gate inside the `sendLoggingMessage` override:
`levels.indexOf(params.level) >= levels.indexOf(currentLogLevel)`. -/
def sendLoggingMessageDelivers (level : LoggingLevel) (currentLogLevel : LoggingLevel) : Bool :=
  decide (levels.indexOf currentLogLevel ≤ levels.indexOf level)

/-- The `sendLoggingMessage` override: forwards to the underlying sender
iff the index comparison passes. -/
def sendLoggingMessage (record : LogRecord) (st : ServerSharedState) : List Delivered :=
  if sendLoggingMessageDelivers record.level st.currentLogLevel then
    [.logMessage record]
  else []

/-- The `sendResourceUpdated` override: forwards to the underlying sender
iff `subscribedResources.has(params.uri)`. -/
def sendResourceUpdated (uri : String) (st : ServerSharedState) : List Delivered :=
  if uri ∈ st.subscribedResources then [.resourceUpdated uri] else []

/-- A request arriving through some session, among the three that touch the
shared state. -/
inductive SessionRequest where
  | setLevelReq (level : String)
  | subscribeReq (uri : String)
  | unsubscribeReq (uri : String)
deriving DecidableEq

/-- One event processed by the server: a request from a given session, or a
server-side trigger of one of the gated senders. -/
inductive ServerEvent where
  | request (sessionId : Nat) (req : SessionRequest)
  | emitLog (record : LogRecord)
  | triggerUpdate (uri : String)
deriving DecidableEq

/-- Apply a session request to the shared state. The handlers close over
the module-level `subscribedResources` and `currentLogLevel`, so the
session id plays no role in the update. -/
def handleSessionRequest (sessionId : Nat) (req : SessionRequest)
    (st : ServerSharedState) : ServerSharedState :=
  match req with
  | .setLevelReq level => (setLevelHandler level st).1
  | .subscribeReq uri => (subscribeHandler uri st).1
  | .unsubscribeReq uri => (unsubscribeHandler uri st).1

/-- Run a list of server events, collecting the notifications delivered on
the wire in order. -/
def runServer : List ServerEvent → ServerSharedState → List Delivered × ServerSharedState
  | [], st => ([], st)
  | .request sid req :: rest, st => runServer rest (handleSessionRequest sid req st)
  | .emitLog record :: rest, st =>
      let tail := runServer rest st
      (sendLoggingMessage record st ++ tail.1, tail.2)
  | .triggerUpdate uri :: rest, st =>
      let tail := runServer rest st
      (sendResourceUpdated uri st ++ tail.1, tail.2)

/-- A progress token: `number | string`, chosen by the caller. -/
inductive ProgressToken where
  | num (n : Int)
  | str (s : String)
deriving DecidableEq

/-- The `_meta` object of a request, optionally carrying `progressToken`. -/
structure MetaParams where
  progressToken : Option ProgressToken
deriving DecidableEq

/-- The token the handlers stamp on progress notifications:
`_meta?.progressToken ?? 0`. -/
def tokenOfMeta (m : Option MetaParams) : ProgressToken :=
  match m with
  | some mp => mp.progressToken.getD (.num 0)
  | none => .num 0

/-- Params of a `notifications/progress` notification sent by a handler. -/
structure ProgressNote where
  progressToken : ProgressToken
  progress : Nat
  total : Nat
  message : String
deriving DecidableEq

/-- An exception thrown by a handler: a plain `Error(message)` or an
`McpError(code, message, { uri })`. -/
inductive ThrownError where
  | plain (message : String)
  | mcp (code : Int) (message : String) (dataUri : Option String)
deriving DecidableEq

/-- The shared loop shape of the slow handlers:
for `i` from the current step upward while steps remain, first check
`signal.aborted` (here: the boolean the signal shows at checkpoint `i`),
abort the loop if set, otherwise emit the progress notification for step
`i` and continue. Returns the notes emitted and whether the loop completed. -/
def progressSteps (tok : ProgressToken) (total : Nat) (signal : Nat → Bool) :
    Nat → Nat → List ProgressNote × Bool
  | _, 0 => ([], true)
  | i, remaining + 1 =>
      if signal i then ([], false)
      else
        let rest := progressSteps tok total signal (i + 1) remaining
        (⟨tok, i, total, "Step " ++ toString i⟩ :: rest.1, rest.2)

/-- Notes for steps `1..count` of a loop with `total` steps. -/
def stepNotes (tok : ProgressToken) (total : Nat) (count : Nat) : List ProgressNote :=
  (List.range count).map (fun m => ⟨tok, m + 1, total, "Step " ++ toString (m + 1)⟩)

/-- A `{ type, text }` content item. -/
structure TextContent where
  type : String
  text : String
deriving DecidableEq

/-- Result of a tool call. -/
structure ToolResult where
  content : List TextContent
deriving DecidableEq

/-- The `slow_echo` tool: 5 steps, checking the signal at each iteration
boundary, emitting `Step i` progress notes, then echoing the message. The
`delay` argument only paces the real handler and has no further effect. -/
def slowEchoTool (message : String) (delay : Nat) (meta : Option MetaParams)
    (signal : Nat → Bool) : List ProgressNote × Except ThrownError ToolResult :=
  let steps := 5
  let run := progressSteps (tokenOfMeta meta) steps signal 1 steps
  (run.1,
    if run.2 then .ok { content := [{ type := "text", text := message }] }
    else .error (.plain "Cancelled"))

/-- One message of a prompt result. -/
structure PromptMessage where
  role : String
  content : TextContent
deriving DecidableEq

/-- Result of `prompts/get`. -/
structure PromptResult where
  description : String
  messages : List PromptMessage
deriving DecidableEq

/-- The `slow_prompt` prompt: 5 steps with the same loop as `slow_echo`,
returning the message wrapped as a user prompt. -/
def slowPrompt (message : String) (meta : Option MetaParams)
    (signal : Nat → Bool) : List ProgressNote × Except ThrownError PromptResult :=
  let steps := 5
  let run := progressSteps (tokenOfMeta meta) steps signal 1 steps
  (run.1,
    if run.2 then
      .ok { description := "Slow prompt",
            messages := [{ role := "user", content := { type := "text", text := message } }] }
    else .error (.plain "Cancelled"))

/-- One `{ uri, mimeType, text }` entry of a read result. -/
structure ResourceContent where
  uri : String
  mimeType : String
  text : String
deriving DecidableEq

/-- Result of `resources/read`. -/
structure ReadResult where
  contents : List ResourceContent
deriving DecidableEq

/-- The `slow-resource` handler at `file:///slow/data.txt`: 3 steps with
the same cooperative loop. -/
def slowResourceHandler (meta : Option MetaParams) (signal : Nat → Bool) :
    List ProgressNote × Except ThrownError ReadResult :=
  let steps := 3
  let run := progressSteps (tokenOfMeta meta) steps signal 1 steps
  (run.1,
    if run.2 then
      .ok { contents := [{ uri := "file:///slow/data.txt", mimeType := "text/plain",
                           text := "slow resource" }] }
    else .error (.plain "Cancelled"))

/-- Text of `main.rs` served by the fixed resource and the template. -/
def mainRsText : String :=
  "fn main() \x7b\n    println!(\"Hello world!\");\n\x7d"

/-- The `main-rs` resource handler at `file:///project/src/main.rs`. -/
def mainRsHandler : List ProgressNote × Except ThrownError ReadResult :=
  ([], .ok { contents := [{ uri := "file:///project/src/main.rs",
                            mimeType := "text/x-rust", text := mainRsText }] })

/-- The template pattern prefix of `http://example.com/\x7b+path\x7d`. -/
def exampleComPrefix : String := "http://example.com/"

/-- Match a uri against the `file-template` pattern: any uri extending the
`http://example.com/` prefix matches, binding `path` to the remainder. -/
def templateMatch (uri : String) : Option String :=
  if uri.data.take 19 = exampleComPrefix.data then some ⟨uri.data.drop 19⟩
  else none

/-- The `file-template` handler: serves the two known paths (the second via
the cooperative 3-step loop) and otherwise throws
`McpError(-32002, 'Resource not found', \x7b uri \x7d)`. -/
def fileTemplateHandler (uriStr : String) (path : String) (meta : Option MetaParams)
    (signal : Nat → Bool) : List ProgressNote × Except ThrownError ReadResult :=
  if path = "project/src/main.rs" then
    ([], .ok { contents := [{ uri := "http://example.com/project/src/main.rs",
                              mimeType := "text/x-rust", text := mainRsText }] })
  else if path = "slow/data.txt" then
    let run := progressSteps (tokenOfMeta meta) 3 signal 1 3
    (run.1,
      if run.2 then
        .ok { contents := [{ uri := "http://example.com/slow/data.txt",
                             mimeType := "text/plain", text := "slow resource" }] }
      else .error (.plain "Cancelled"))
  else
    ([], .error (.mcp (-32002) "Resource not found" (some uriStr)))

/-- Modelled from the spec: the SDK's original `resources/read` dispatcher
(`origReadHandler`) is not part of this repository's sources. It looks the
uri up among the registered fixed resources, then among the registered
templates, and rejects a uri matching neither with the invalid-params
error (code -32602) that the repository's wrapper inspects. -/
def origReadHandler (uri : String) (meta : Option MetaParams) (signal : Nat → Bool) :
    List ProgressNote × Except ThrownError ReadResult :=
  if uri = "file:///project/src/main.rs" then mainRsHandler
  else if uri = "file:///slow/data.txt" then slowResourceHandler meta signal
  else
    match templateMatch uri with
    | some path => fileTemplateHandler uri path meta signal
    | none => ([], .error (.mcp (-32602) ("Resource " ++ uri ++ " not found") none))

/-- The repository's replacement `resources/read` handler: delegates to the
original handler and rethrows an error whose `code` is -32602 as
`McpError(-32002, 'Resource not found', \x7b uri: request.params.uri \x7d)`;
every other outcome passes through unchanged. -/
def readResourceHandler (uri : String) (meta : Option MetaParams) (signal : Nat → Bool) :
    List ProgressNote × Except ThrownError ReadResult :=
  let r := origReadHandler uri meta signal
  match r.2 with
  | .error (.mcp code _ _) =>
      if code = -32602 then (r.1, .error (.mcp (-32002) "Resource not found" (some uri)))
      else r
  | _ => r

/-- A listed resource entry `{ uri, name }`. -/
structure ListedResource where
  uri : String
  name : String
deriving DecidableEq

/-- Params of a `resources/list` request; `cursor := none` means the
`cursor` key is absent from the params object. -/
structure ListResourcesParams where
  cursor : Option String
deriving DecidableEq

/-- Result of `resources/list`: a page and an optional continuation cursor. -/
structure ListResourcesResult where
  resources : List ListedResource
  nextCursor : Option String
deriving DecidableEq

/-- The paginated `resources/list` handler installed by the Paginated
Resource Listing test: page two iff the params object is present, has a
`cursor` key, and its value is the string `'next'`; otherwise page one
with `nextCursor 'next'`. -/
def paginatedListHandler (params : Option ListResourcesParams) : ListResourcesResult :=
  match params with
  | some p =>
      if p.cursor = some "next" then
        { resources := [{ uri := "file:///two", name := "two" }], nextCursor := none }
      else
        { resources := [{ uri := "file:///one", name := "one" }], nextCursor := some "next" }
  | none =>
      { resources := [{ uri := "file:///one", name := "one" }], nextCursor := some "next" }

/-- The wire envelope of a `resources/list` request as the client sends it:
`listResources()` omits the params object entirely, while
`listResources(\x7b cursor \x7d)` sends a params object with the cursor. -/
structure ListRequestWire where
  id : Nat
  method : String
  params : Option ListResourcesParams
deriving DecidableEq

/-- Build the wire request for `resources/list`. -/
def mkListResourcesRequest (id : Nat) (params : Option ListResourcesParams) :
    ListRequestWire :=
  { id := id, method := "resources/list", params := params }

/-- A message the caller's engine puts on the wire: an outgoing request or
a `notifications/cancelled` notification. -/
inductive WireMsg where
  | request (id : Nat) (method : String)
  | cancelledNote (requestId : Nat) (reason : String)
deriving DecidableEq

/-- What the caller observes as the terminal outcome of one of its calls. -/
inductive CallerOutcome where
  | result (payload : String)
  | errorResult (code : Int) (message : String)
  | cancelledFailure (reason : String)
deriving DecidableEq

/-- Modelled from the spec: the caller-side protocol engine (the SDK
`Protocol` class with its `_requestMessageId` counter and correlation
table) is not part of this repository's sources; only its tests and
callers are. Per spec section 3 a session owns a monotonic request-id
counter starting at 1, and per sections 4.1 and 4.2 the correlation table
resolves terminal messages by id, treats unknown ids as no-ops, and on
local cancellation immediately resolves the caller with a cancellation
failure, emits `notifications/cancelled`, and discards any later terminal
message for that id. -/
structure ProtocolSession where
  requestMessageId : Nat
  pendingIds : List Nat
  sent : List WireMsg
  observed : List (Nat × CallerOutcome)
  allocated : List Nat
deriving DecidableEq

/-- Session state at connect time: counter 1, nothing pending. -/
def initialSession : ProtocolSession :=
  { requestMessageId := 1, pendingIds := [], sent := [], observed := [], allocated := [] }

/-- One event at the caller's engine: a submission by a local caller, a
local cancellation, or a terminal message arriving from the peer. -/
inductive CallerEvent where
  | submit (method : String)
  | cancelLocally (id : Nat) (reason : String)
  | recvResult (id : Nat) (payload : String)
  | recvError (id : Nat) (code : Int) (message : String)
deriving DecidableEq

/-- Modelled from the spec: one step of the caller-side engine. `submit`
allocates the counter value as the id and increments the counter;
`cancelLocally` on a pending id removes it, sends the cancellation
notification and resolves the caller with a cancellation failure; a
terminal message for a pending id resolves the caller with it; a terminal
message or cancellation for a non-pending id is a no-op. -/
def protocolStep (ev : CallerEvent) (s : ProtocolSession) : ProtocolSession :=
  match ev with
  | .submit method =>
      { s with requestMessageId := s.requestMessageId + 1,
               pendingIds := s.requestMessageId :: s.pendingIds,
               sent := s.sent ++ [.request s.requestMessageId method],
               allocated := s.allocated ++ [s.requestMessageId] }
  | .cancelLocally id reason =>
      if id ∈ s.pendingIds then
        { s with pendingIds := s.pendingIds.filter (fun x => x != id),
                 sent := s.sent ++ [.cancelledNote id reason],
                 observed := s.observed ++ [(id, .cancelledFailure reason)] }
      else s
  | .recvResult id payload =>
      if id ∈ s.pendingIds then
        { s with pendingIds := s.pendingIds.filter (fun x => x != id),
                 observed := s.observed ++ [(id, .result payload)] }
      else s
  | .recvError id code message =>
      if id ∈ s.pendingIds then
        { s with pendingIds := s.pendingIds.filter (fun x => x != id),
                 observed := s.observed ++ [(id, .errorResult code message)] }
      else s

/-- Run the engine over a list of events. -/
def protocolRun (evs : List CallerEvent) (s : ProtocolSession) : ProtocolSession :=
  List.foldl (fun st ev => protocolStep ev st) s evs

/-- C1 counterexample: calling the setLevel handler with the invalid level
string "fatal" does not fail with an invalid-parameter error (or any
error): it returns the empty-object success and leaves the threshold
unchanged. -/
theorem setLevel_invalid_counterexample :
    setLevelHandler "fatal" initialServerState = (initialServerState, .ok)
    ∧ isErrorOutcome (setLevelHandler "fatal" initialServerState).2 = false := by
  constructor <;> rfl

/-- C1 (amended): a setLevel call with a level that is not one of the
eight defined severities is silently ignored: the handler returns the
empty-object success and leaves the threshold unchanged; a call with a
valid level sets the threshold to that level and returns the empty-object
success. -/
theorem setLevelHandler_spec (level : String) (st : ServerSharedState) :
    (∀ l, parseLevel level = some l →
        setLevelHandler level st = ({ st with currentLogLevel := l }, .ok))
    ∧ (parseLevel level = none → setLevelHandler level st = (st, .ok)) := by
  constructor
  · intro l hl
    simp [setLevelHandler, hl]
  · intro h
    simp [setLevelHandler, h]

/-- Witness for C1: setting "error" changes the threshold, setting the
invalid "fatal" leaves the initial threshold in place, both with success. -/
theorem setLevelHandler_spec_witness :
    setLevelHandler "error" initialServerState
      = ({ subscribedResources := [], currentLogLevel := .error }, .ok)
    ∧ setLevelHandler "fatal" initialServerState = (initialServerState, .ok) :=
  ⟨(setLevelHandler_spec "error" initialServerState).1 .error rfl,
   (setLevelHandler_spec "fatal" initialServerState).2 rfl⟩

/-- C2: a resources/updated notification is emitted only for a uri in the
subscription set; updating an unsubscribed uri is a silent no-op; after
subscribing to a uri one update trigger yields exactly the one
notification for that uri; after unsubscribing it yields none; and
duplicate subscribe is idempotent. -/
theorem resourceUpdated_gated_by_subscription :
    (∀ uri st, sendResourceUpdated uri st ≠ [] → uri ∈ st.subscribedResources)
    ∧ (∀ uri st, uri ∉ st.subscribedResources → sendResourceUpdated uri st = [])
    ∧ (∀ uri st, sendResourceUpdated uri (subscribeHandler uri st).1
        = [.resourceUpdated uri])
    ∧ (∀ uri st, sendResourceUpdated uri (unsubscribeHandler uri st).1 = [])
    ∧ (∀ uri st, (subscribeHandler uri (subscribeHandler uri st).1).1
        = (subscribeHandler uri st).1) := by
  refine ⟨?_, ?_, ?_, ?_, ?_⟩
  · intro uri st h
    by_contra hmem
    simp [sendResourceUpdated, hmem] at h
  · intro uri st hmem
    simp [sendResourceUpdated, hmem]
  · intro uri st
    unfold subscribeHandler
    split
    · next hmem => simp [sendResourceUpdated, hmem]
    · simp [sendResourceUpdated]
  · intro uri st
    simp [sendResourceUpdated, unsubscribeHandler]
  · intro uri st
    unfold subscribeHandler
    split
    · next hmem => simp [hmem]
    · simp

/-- Witness for C2 at concrete inputs: subscribe then update emits the one
notification; update on the empty subscription set emits nothing; a
nonempty emission implies membership. -/
theorem resourceUpdated_gated_by_subscription_witness :
    sendResourceUpdated "file:///project/src/main.rs"
        (subscribeHandler "file:///project/src/main.rs" initialServerState).1
      = [.resourceUpdated "file:///project/src/main.rs"]
    ∧ sendResourceUpdated "file:///other" initialServerState = []
    ∧ "file:///a" ∈ (ServerSharedState.mk ["file:///a"] .info).subscribedResources :=
  ⟨resourceUpdated_gated_by_subscription.2.2.1 "file:///project/src/main.rs" initialServerState,
   resourceUpdated_gated_by_subscription.2.1 "file:///other" initialServerState
     (by simp [initialServerState]),
   resourceUpdated_gated_by_subscription.1 "file:///a" (ServerSharedState.mk ["file:///a"] .info)
     (by simp [sendResourceUpdated])⟩

/-- C7: listing with no cursor returns the page with `file:///one` and
`nextCursor 'next'`; re-submitting that returned cursor returns the
disjoint page with `file:///two` and no nextCursor; and the wire envelope
with the cursor parameter omitted differs from the one carrying an
empty-string cursor. -/
theorem paginated_resource_listing :
    paginatedListHandler none
      = { resources := [{ uri := "file:///one", name := "one" }], nextCursor := some "next" }
    ∧ paginatedListHandler (some { cursor := (paginatedListHandler none).nextCursor })
      = { resources := [{ uri := "file:///two", name := "two" }], nextCursor := none }
    ∧ (paginatedListHandler none).resources.inter
        (paginatedListHandler (some { cursor := (paginatedListHandler none).nextCursor })).resources
      = []
    ∧ decide (mkListResourcesRequest 3 none
        = mkListResourcesRequest 3 (some { cursor := some "" })) = false := by
  refine ⟨rfl, rfl, ?_, ?_⟩ <;> decide

/-- C9: the handlers mutate one process-wide state regardless of which
session issued the request, and concretely: a setLevel through session 1
suppresses an info log that would otherwise be delivered, and a subscribe
through session 1 enables an update notification that is otherwise absent,
so the notifications any session observes depend on other sessions'
inputs. -/
theorem shared_state_interference :
    (∀ sid1 sid2 req st, handleSessionRequest sid1 req st = handleSessionRequest sid2 req st)
    ∧ (runServer [.request 1 (.setLevelReq "error"),
          .emitLog { level := .info, logger := "test", data := "a" }] initialServerState).1 = []
    ∧ (runServer [.emitLog { level := .info, logger := "test", data := "a" }]
          initialServerState).1
        = [.logMessage { level := .info, logger := "test", data := "a" }]
    ∧ (runServer [.request 1 (.subscribeReq "file:///r"), .triggerUpdate "file:///r"]
          initialServerState).1
        = [.resourceUpdated "file:///r"]
    ∧ (runServer [.triggerUpdate "file:///r"] initialServerState).1 = [] := by
  refine ⟨fun sid1 sid2 req st => rfl, ?_, ?_, ?_, ?_⟩ <;> decide

/-- The indexOf-based gate of the source agrees with the spec's explicit
severity ranks. -/
theorem gateDeliversIffRank (l c : LoggingLevel) :
    sendLoggingMessageDelivers l c = true ↔ severityRankSpec c ≤ severityRankSpec l := by
  cases l <;> cases c <;> decide

/-- Running the server on a concatenation of event lists delivers the
first list's notifications first, computed from the state before the
second list runs: later events cannot affect earlier deliveries. -/
theorem runServer_append (pre suf : List ServerEvent) (st : ServerSharedState) :
    runServer (pre ++ suf) st
      = ((runServer pre st).1 ++ (runServer suf (runServer pre st).2).1,
         (runServer suf (runServer pre st).2).2) := by
  induction pre generalizing st with
  | nil => simp [runServer]
  | cons ev rest ih =>
      cases ev with
      | request sid req => simp [runServer, ih]
      | emitLog record => simp [runServer, ih]
      | triggerUpdate uri => simp [runServer, ih]

/-- C3: a log record is delivered by the sendLoggingMessage override iff
the rank of its severity in the fixed order debug < info < notice <
warning < error < critical < alert < emergency is at least the rank of
the current threshold; and a threshold change (or any later event) leaves
the deliveries of earlier events untouched, affecting only subsequent
emissions. -/
theorem logging_delivery_iff_rank :
    (∀ record st, Delivered.logMessage record ∈ sendLoggingMessage record st
        ↔ severityRankSpec st.currentLogLevel ≤ severityRankSpec record.level)
    ∧ (∀ pre suf st, runServer (pre ++ suf) st
        = ((runServer pre st).1 ++ (runServer suf (runServer pre st).2).1,
           (runServer suf (runServer pre st).2).2)) := by
  constructor
  · intro record st
    by_cases h : sendLoggingMessageDelivers record.level st.currentLogLevel
    · simpa [sendLoggingMessage, h] using (gateDeliversIffRank record.level st.currentLogLevel).mp h
    · simp only [sendLoggingMessage, h, Bool.false_eq_true, if_false, List.not_mem_nil,
        false_iff]
      exact fun hc => h ((gateDeliversIffRank record.level st.currentLogLevel).mpr hc)
  · exact runServer_append

/-- Witness for C3: with the initial `info` threshold an `error` record is
delivered (rank 4 at least rank 1), and the two-event decomposition holds
at a concrete setLevel-then-emit trace. -/
theorem logging_delivery_iff_rank_witness :
    Delivered.logMessage { level := .error, logger := "test", data := "b" }
      ∈ sendLoggingMessage { level := .error, logger := "test", data := "b" } initialServerState
    ∧ runServer ([.request 1 (.setLevelReq "error")]
          ++ [.emitLog { level := .info, logger := "test", data := "c" }]) initialServerState
      = ((runServer [.request 1 (.setLevelReq "error")] initialServerState).1
          ++ (runServer [.emitLog { level := .info, logger := "test", data := "c" }]
                (runServer [.request 1 (.setLevelReq "error")] initialServerState).2).1,
         (runServer [.emitLog { level := .info, logger := "test", data := "c" }]
            (runServer [.request 1 (.setLevelReq "error")] initialServerState).2).2) :=
  ⟨(logging_delivery_iff_rank.1
      { level := .error, logger := "test", data := "b" } initialServerState).mpr (by decide),
   logging_delivery_iff_rank.2 [.request 1 (.setLevelReq "error")]
     [.emitLog { level := .info, logger := "test", data := "c" }] initialServerState⟩

/-- If the signal stays clear through every checkpoint, the loop runs to
completion and emits one note per step. -/
theorem progressSteps_complete (tok : ProgressToken) (total : Nat) (signal : Nat → Bool)
    (remaining : Nat) :
    ∀ i, (∀ j, i ≤ j → j < i + remaining → signal j = false) →
      progressSteps tok total signal i remaining
        = ((List.range remaining).map
            (fun m => { progressToken := tok, progress := i + m, total := total,
                        message := "Step " ++ toString (i + m) }), true) := by
  induction remaining with
  | zero => intro i _; simp [progressSteps]
  | succ r ih =>
      intro i h
      have h0 : signal i = false := h i (Nat.le_refl i) (by omega)
      have hrest := ih (i + 1) (fun j hj1 hj2 => h j (by omega) (by omega))
      simp only [progressSteps, h0, Bool.false_eq_true, if_false, hrest,
        List.range_succ_eq_map, List.map_cons, List.map_map, Nat.add_zero,
        Prod.mk.injEq, List.cons.injEq, and_true, true_and]
      exact List.map_congr_left fun a _ => by
        simp only [Function.comp_apply]
        rw [Nat.succ_eq_add_one, Nat.add_comm a 1, ← Nat.add_assoc]

/-- If the signal is first seen aborted at checkpoint `k` within range, the
loop stops there: it emits the notes of the steps strictly before `k` and
does not complete. -/
theorem progressSteps_abort (tok : ProgressToken) (total : Nat) (signal : Nat → Bool)
    (remaining : Nat) :
    ∀ i k, i ≤ k → k < i + remaining → signal k = true →
      (∀ j, i ≤ j → j < k → signal j = false) →
      progressSteps tok total signal i remaining
        = ((List.range (k - i)).map
            (fun m => { progressToken := tok, progress := i + m, total := total,
                        message := "Step " ++ toString (i + m) }), false) := by
  induction remaining with
  | zero => intro i k h1 h2 _ _; omega
  | succ r ih =>
      intro i k h1 h2 hk hbefore
      rcases Nat.eq_or_lt_of_le h1 with rfl | hlt
      · simp [progressSteps, hk]
      · have h0 : signal i = false := hbefore i (Nat.le_refl i) hlt
        have hrest := ih (i + 1) k hlt (by omega) hk
          (fun j hj1 hj2 => hbefore j (by omega) hj2)
        have hki : k - i = (k - (i + 1)) + 1 := by omega
        simp only [progressSteps, h0, Bool.false_eq_true, if_false, hrest, hki,
          List.range_succ_eq_map, List.map_cons, List.map_map, Nat.add_zero,
          Prod.mk.injEq, List.cons.injEq, and_true, true_and]
        exact List.map_congr_left fun a _ => by
          simp only [Function.comp_apply]
          rw [Nat.succ_eq_add_one, Nat.add_comm a 1, ← Nat.add_assoc]

/-- Specialisation of completion to the handlers' loops, which start at
step 1 and run `total` steps. -/
theorem progressSteps_one_complete (tok : ProgressToken) (total : Nat) (signal : Nat → Bool)
    (h : ∀ j, 1 ≤ j → j ≤ total → signal j = false) :
    progressSteps tok total signal 1 total = (stepNotes tok total total, true) := by
  rw [progressSteps_complete tok total signal total 1 (fun j h1 h2 => h j h1 (by omega))]
  unfold stepNotes
  refine congrArg (fun l => (l, true)) ?_
  exact List.map_congr_left fun a _ => by rw [Nat.add_comm 1 a]

/-- Specialisation of abort to the handlers' loops. -/
theorem progressSteps_one_abort (tok : ProgressToken) (total : Nat) (signal : Nat → Bool)
    (k : Nat) (h1 : 1 ≤ k) (h2 : k ≤ total) (hk : signal k = true)
    (hbefore : ∀ j, 1 ≤ j → j < k → signal j = false) :
    progressSteps tok total signal 1 total = (stepNotes tok total (k - 1), false) := by
  rw [progressSteps_abort tok total signal total 1 k h1 (by omega) hk hbefore]
  unfold stepNotes
  refine congrArg (fun l => (l, false)) ?_
  exact List.map_congr_left fun a _ => by rw [Nat.add_comm 1 a]

/-- C5: each long-running handler checks the signal only at its loop
checkpoints; a clear signal throughout lets it emit every step's progress
note and return its result, while a signal first seen aborted at
checkpoint `k` makes it throw a plain `'Cancelled'` error having emitted
exactly the notes of the steps before `k` — no further progress and no
result. -/
theorem cooperative_cancellation (message : String) (delay : Nat)
    (meta : Option MetaParams) (signal : Nat → Bool) :
    ((∀ j, 1 ≤ j → j ≤ 5 → signal j = false) →
        slowEchoTool message delay meta signal
          = (stepNotes (tokenOfMeta meta) 5 5,
             .ok { content := [{ type := "text", text := message }] }))
    ∧ (∀ k, 1 ≤ k → k ≤ 5 → signal k = true →
        (∀ j, 1 ≤ j → j < k → signal j = false) →
        slowEchoTool message delay meta signal
          = (stepNotes (tokenOfMeta meta) 5 (k - 1), .error (.plain "Cancelled")))
    ∧ ((∀ j, 1 ≤ j → j ≤ 5 → signal j = false) →
        slowPrompt message meta signal
          = (stepNotes (tokenOfMeta meta) 5 5,
             .ok { description := "Slow prompt",
                   messages := [{ role := "user",
                                  content := { type := "text", text := message } }] }))
    ∧ (∀ k, 1 ≤ k → k ≤ 5 → signal k = true →
        (∀ j, 1 ≤ j → j < k → signal j = false) →
        slowPrompt message meta signal
          = (stepNotes (tokenOfMeta meta) 5 (k - 1), .error (.plain "Cancelled")))
    ∧ ((∀ j, 1 ≤ j → j ≤ 3 → signal j = false) →
        slowResourceHandler meta signal
          = (stepNotes (tokenOfMeta meta) 3 3,
             .ok { contents := [{ uri := "file:///slow/data.txt", mimeType := "text/plain",
                                  text := "slow resource" }] }))
    ∧ (∀ k, 1 ≤ k → k ≤ 3 → signal k = true →
        (∀ j, 1 ≤ j → j < k → signal j = false) →
        slowResourceHandler meta signal
          = (stepNotes (tokenOfMeta meta) 3 (k - 1), .error (.plain "Cancelled"))) := by
  refine ⟨?_, ?_, ?_, ?_, ?_, ?_⟩
  · intro h
    simp [slowEchoTool, progressSteps_one_complete (tokenOfMeta meta) 5 signal h]
  · intro k h1 h2 hk hbefore
    simp only [slowEchoTool, progressSteps_one_abort (tokenOfMeta meta) 5 signal k h1 h2 hk hbefore,
      Bool.false_eq_true, if_false]
  · intro h
    simp [slowPrompt, progressSteps_one_complete (tokenOfMeta meta) 5 signal h]
  · intro k h1 h2 hk hbefore
    simp only [slowPrompt, progressSteps_one_abort (tokenOfMeta meta) 5 signal k h1 h2 hk hbefore,
      Bool.false_eq_true, if_false]
  · intro h
    simp [slowResourceHandler, progressSteps_one_complete (tokenOfMeta meta) 3 signal h]
  · intro k h1 h2 hk hbefore
    simp only [slowResourceHandler,
      progressSteps_one_abort (tokenOfMeta meta) 3 signal k h1 h2 hk hbefore,
      Bool.false_eq_true, if_false]

/-- Witness for C5: a signal aborted from checkpoint 3 on stops `slow_echo`
after the first two notes with the `'Cancelled'` error, and a clear signal
lets the slow resource complete its three steps. -/
theorem cooperative_cancellation_witness :
    slowEchoTool "hello" 1000 none (fun i => decide (3 ≤ i))
      = (stepNotes (.num 0) 5 2, .error (.plain "Cancelled"))
    ∧ slowResourceHandler none (fun _ => false)
      = (stepNotes (.num 0) 3 3,
         .ok { contents := [{ uri := "file:///slow/data.txt", mimeType := "text/plain",
                              text := "slow resource" }] }) :=
  ⟨(cooperative_cancellation "hello" 1000 none (fun i => decide (3 ≤ i))).2.1 3
      (by decide) (by decide) (by decide)
      (fun j _ hj => decide_eq_false (by omega)),
   (cooperative_cancellation "hello" 1000 none (fun _ => false)).2.2.2.2.1
      (fun j _ _ => rfl)⟩

/-- Every note emitted by the cooperative loop carries the token the loop
was started with. -/
theorem progressSteps_token (tok : ProgressToken) (total : Nat) (signal : Nat → Bool)
    (remaining : Nat) :
    ∀ i p, p ∈ (progressSteps tok total signal i remaining).1 → p.progressToken = tok := by
  induction remaining with
  | zero => intro i p hp; simp [progressSteps] at hp
  | succ r ih =>
      intro i p hp
      by_cases h0 : signal i
      · simp [progressSteps, h0] at hp
      · simp only [progressSteps, h0, Bool.false_eq_true, if_false, List.mem_cons] at hp
        rcases hp with rfl | hp
        · rfl
        · exact ih (i + 1) p hp

/-- C6 (amended): every progress notification a handler emits carries the
token derived from the originating request's metadata — the caller's token
when one was supplied, and the default token `0` when the request supplied
none (the handlers emit progress in that case too, rather than staying
silent). -/
theorem progress_token_echoed (message : String) (delay : Nat) (meta : Option MetaParams)
    (signal : Nat → Bool) :
    (∀ t, tokenOfMeta (some { progressToken := some t }) = t)
    ∧ (∀ p ∈ (slowEchoTool message delay meta signal).1, p.progressToken = tokenOfMeta meta)
    ∧ (∀ p ∈ (slowPrompt message meta signal).1, p.progressToken = tokenOfMeta meta)
    ∧ (∀ p ∈ (slowResourceHandler meta signal).1, p.progressToken = tokenOfMeta meta)
    ∧ tokenOfMeta none = .num 0 := by
  refine ⟨fun t => rfl, ?_, ?_, ?_, rfl⟩
  · intro p hp
    exact progressSteps_token (tokenOfMeta meta) 5 signal 5 1 p hp
  · intro p hp
    exact progressSteps_token (tokenOfMeta meta) 5 signal 5 1 p hp
  · intro p hp
    exact progressSteps_token (tokenOfMeta meta) 3 signal 3 1 p hp

/-- Witness for C6: the first note `slow_echo` emits for a request whose
metadata carries token 7 itself carries token 7. -/
theorem progress_token_echoed_witness :
    ProgressNote.progressToken ⟨.num 7, 1, 5, "Step 1"⟩ = ProgressToken.num 7 :=
  (progress_token_echoed "x" 500 (some { progressToken := some (.num 7) })
      (fun _ => false)).2.1 ⟨.num 7, 1, 5, "Step 1"⟩ (by decide)

/-- C6 counterexample: a `slow_echo` call whose request supplied no
progress token still emits all five progress notifications (stamped with
the default token 0), refuting the claim that handlers emit progress only
for requests that supplied a token. -/
theorem progress_without_token_counterexample :
    (slowEchoTool "hello" 500 none (fun _ => false)).1 = stepNotes (.num 0) 5 5
    ∧ ((slowEchoTool "hello" 500 none (fun _ => false)).1).isEmpty = false := by
  constructor <;> rfl

/-- C10: reading a uri that is neither of the two fixed resources and
either matches no template or matches the template at an unknown path
fails with code -32002, message 'Resource not found', and the requested
uri in the error data — via the wrapper's -32602 catch for non-matching
uris, and directly from the template handler for unmatched paths. -/
theorem read_unknown_uri_not_found (uri path : String) (meta : Option MetaParams)
    (signal : Nat → Bool)
    (h1 : uri ≠ "file:///project/src/main.rs") (h2 : uri ≠ "file:///slow/data.txt")
    (h3 : ∀ p, templateMatch uri = some p →
        p ≠ "project/src/main.rs" ∧ p ≠ "slow/data.txt")
    (hp1 : path ≠ "project/src/main.rs") (hp2 : path ≠ "slow/data.txt") :
    (readResourceHandler uri meta signal).2
      = .error (.mcp (-32002) "Resource not found" (some uri))
    ∧ (fileTemplateHandler uri path meta signal).2
      = .error (.mcp (-32002) "Resource not found" (some uri)) := by
  have htempl : (fileTemplateHandler uri path meta signal)
      = ([], .error (.mcp (-32002) "Resource not found" (some uri))) := by
    simp [fileTemplateHandler, hp1, hp2]
  constructor
  · unfold readResourceHandler origReadHandler
    simp only [if_neg h1, if_neg h2]
    cases htm : templateMatch uri with
    | none => simp
    | some p =>
        obtain ⟨hq1, hq2⟩ := h3 p htm
        simp [fileTemplateHandler, hq1, hq2]
  · rw [htempl]

/-- Witness for C10: a uri outside every registration is rewritten by the
wrapper to the -32002 error carrying that uri, and a template path other
than the two known ones raises the -32002 error directly. -/
theorem read_unknown_uri_not_found_witness :
    (readResourceHandler "file:///nope" none (fun _ => false)).2
      = .error (.mcp (-32002) "Resource not found" (some "file:///nope"))
    ∧ (fileTemplateHandler "http://example.com/other.txt" "other.txt" none (fun _ => false)).2
      = .error (.mcp (-32002) "Resource not found" (some "http://example.com/other.txt")) := by
  constructor
  · exact (read_unknown_uri_not_found "file:///nope" "other.txt" none (fun _ => false)
      (by decide) (by decide)
      (fun p hp => by
        rw [show templateMatch "file:///nope" = none from by decide] at hp
        exact absurd hp (by simp))
      (by decide) (by decide)).1
  · exact (read_unknown_uri_not_found "http://example.com/other.txt" "other.txt" none
      (fun _ => false) (by decide) (by decide)
      (fun p hp => by
        rw [show templateMatch "http://example.com/other.txt" = some "other.txt" from by decide]
          at hp
        injection hp with hpe
        subst hpe
        exact ⟨by decide, by decide⟩)
      (by decide) (by decide)).2

/-- Invariant of the caller-side engine: pending and observed ids are
below the counter, a pending request has no recorded terminal observation,
allocated ids strictly increase, and the first allocation (if any) took
the initial counter value 1. -/
def sessionInv (s : ProtocolSession) : Prop :=
  (∀ id ∈ s.pendingIds, id < s.requestMessageId)
  ∧ (∀ e ∈ s.observed, e.1 < s.requestMessageId)
  ∧ (∀ id ∈ s.pendingIds, ∀ o, (id, o) ∉ s.observed)
  ∧ s.allocated.Pairwise (· < ·)
  ∧ (∀ id ∈ s.allocated, id < s.requestMessageId)
  ∧ (s.allocated = [] → s.requestMessageId = 1)
  ∧ (s.allocated ≠ [] → s.allocated.head? = some 1)

/-- The fresh session satisfies the invariant. -/
theorem initialSession_inv : sessionInv initialSession := by
  refine ⟨?_, ?_, ?_, ?_, ?_, ?_, ?_⟩ <;> simp [initialSession]

/-- Resolving a pending id (by cancellation or a terminal message)
preserves the invariant. -/
theorem resolve_inv (s : ProtocolSession) (cid : Nat) (o : CallerOutcome)
    (sent2 : List WireMsg) (hmem : cid ∈ s.pendingIds) (h : sessionInv s) :
    sessionInv { s with pendingIds := s.pendingIds.filter (fun x => x != cid),
                        sent := sent2,
                        observed := s.observed ++ [(cid, o)] } := by
  obtain ⟨h1, h2, h3, h4, h5, h6, h7⟩ := h
  refine ⟨?_, ?_, ?_, h4, h5, h6, h7⟩
  · intro id hid
    exact h1 id (List.mem_of_mem_filter hid)
  · intro e he
    rcases List.mem_append.mp he with he | he
    · exact h2 e he
    · simp only [List.mem_singleton] at he
      subst he
      exact h1 cid hmem
  · intro id hid o2
    have hne : id ≠ cid := by
      have := (List.mem_filter.mp hid).2
      simpa using this
    intro habs
    rcases List.mem_append.mp habs with habs | habs
    · exact h3 id (List.mem_of_mem_filter hid) o2 habs
    · simp only [List.mem_singleton, Prod.mk.injEq] at habs
      exact hne habs.1

/-- Every engine step preserves the invariant. -/
theorem protocolStep_inv (ev : CallerEvent) (s : ProtocolSession) (h : sessionInv s) :
    sessionInv (protocolStep ev s) := by
  obtain ⟨h1, h2, h3, h4, h5, h6, h7⟩ := h
  cases ev with
  | submit method =>
      refine ⟨?_, ?_, ?_, ?_, ?_, ?_, ?_⟩
      · intro id hid
        simp only [protocolStep, List.mem_cons] at hid ⊢
        rcases hid with rfl | hid
        · omega
        · have := h1 id hid
          omega
      · intro e he
        simp only [protocolStep] at he ⊢
        have := h2 e he
        omega
      · intro id hid o
        simp only [protocolStep, List.mem_cons] at hid ⊢
        rcases hid with rfl | hid
        · intro habs
          have := h2 _ habs
          simp only [protocolStep] at this
          omega
        · exact h3 id hid o
      · simp only [protocolStep]
        rw [List.pairwise_append]
        refine ⟨h4, by simp, ?_⟩
        intro a ha b hb
        simp only [List.mem_singleton] at hb
        subst hb
        exact h5 a ha
      · intro id hid
        simp only [protocolStep, List.mem_append, List.mem_singleton] at hid ⊢
        rcases hid with hid | rfl
        · have := h5 id hid
          omega
        · omega
      · intro hempty
        simp only [protocolStep] at hempty
        exact absurd hempty (by simp)
      · intro _
        simp only [protocolStep]
        cases hl : s.allocated with
        | nil =>
            have := h6 hl
            simp [hl, this]
        | cons a as =>
            have := h7 (by simp [hl])
            rw [hl] at this
            simp only [List.cons_append, List.head?_cons] at this ⊢
            exact this
  | cancelLocally cid reason =>
      by_cases hmem : cid ∈ s.pendingIds
      · simp only [protocolStep, if_pos hmem]
        exact resolve_inv s cid (.cancelledFailure reason)
          (s.sent ++ [.cancelledNote cid reason]) hmem ⟨h1, h2, h3, h4, h5, h6, h7⟩
      · simp only [protocolStep, if_neg hmem]
        exact ⟨h1, h2, h3, h4, h5, h6, h7⟩
  | recvResult cid payload =>
      by_cases hmem : cid ∈ s.pendingIds
      · simp only [protocolStep, if_pos hmem]
        exact resolve_inv s cid (.result payload) s.sent hmem ⟨h1, h2, h3, h4, h5, h6, h7⟩
      · simp only [protocolStep, if_neg hmem]
        exact ⟨h1, h2, h3, h4, h5, h6, h7⟩
  | recvError cid code message =>
      by_cases hmem : cid ∈ s.pendingIds
      · simp only [protocolStep, if_pos hmem]
        exact resolve_inv s cid (.errorResult code message) s.sent hmem ⟨h1, h2, h3, h4, h5, h6, h7⟩
      · simp only [protocolStep, if_neg hmem]
        exact ⟨h1, h2, h3, h4, h5, h6, h7⟩

/-- The invariant holds along every run. -/
theorem protocolRun_inv (evs : List CallerEvent) (s : ProtocolSession) (h : sessionInv s) :
    sessionInv (protocolRun evs s) := by
  induction evs generalizing s with
  | nil => exact h
  | cons ev rest ih => exact ih (protocolStep ev s) (protocolStep_inv ev s h)

/-- Once an id below the counter is out of the pending set, one engine
step keeps it out, keeps its observation record unchanged, keeps every
sent message sent, and keeps it below the counter. -/
theorem protocolStep_stable (ev : CallerEvent) (s : ProtocolSession) (R : Nat)
    (hnot : R ∉ s.pendingIds) (hlt : R < s.requestMessageId) :
    R ∉ (protocolStep ev s).pendingIds
    ∧ (protocolStep ev s).observed.filter (fun e => e.1 == R)
        = s.observed.filter (fun e => e.1 == R)
    ∧ (∀ m ∈ s.sent, m ∈ (protocolStep ev s).sent)
    ∧ R < (protocolStep ev s).requestMessageId := by
  have resolveCase : ∀ cid, cid ∈ s.pendingIds →
      R ∉ s.pendingIds.filter (fun x => x != cid)
      ∧ ∀ o : CallerOutcome, (s.observed ++ [(cid, o)]).filter (fun e => e.1 == R)
          = s.observed.filter (fun e => e.1 == R) := by
    intro cid hmem
    have hne : (cid == R) = false := by
      apply beq_eq_false_iff_ne.mpr
      intro habs
      exact hnot (habs ▸ hmem)
    refine ⟨fun hR => hnot (List.mem_of_mem_filter hR), fun o => ?_⟩
    rw [List.filter_append]
    simp [hne]
  cases ev with
  | submit method =>
      refine ⟨?_, rfl, ?_, ?_⟩
      · simp only [protocolStep, List.mem_cons]
        rintro (rfl | hR)
        · omega
        · exact hnot hR
      · intro m hm
        simp only [protocolStep, List.mem_append]
        exact Or.inl hm
      · simp only [protocolStep]
        omega
  | cancelLocally cid reason =>
      by_cases hmem : cid ∈ s.pendingIds
      · obtain ⟨r1, r2⟩ := resolveCase cid hmem
        simp only [protocolStep, if_pos hmem]
        exact ⟨r1, r2 _, fun m hm => List.mem_append.mpr (Or.inl hm), hlt⟩
      · simp only [protocolStep, if_neg hmem]
        exact ⟨hnot, trivial, fun m hm => hm, hlt⟩
  | recvResult cid payload =>
      by_cases hmem : cid ∈ s.pendingIds
      · obtain ⟨r1, r2⟩ := resolveCase cid hmem
        simp only [protocolStep, if_pos hmem]
        exact ⟨r1, r2 _, fun m hm => hm, hlt⟩
      · simp only [protocolStep, if_neg hmem]
        exact ⟨hnot, trivial, fun m hm => hm, hlt⟩
  | recvError cid code message =>
      by_cases hmem : cid ∈ s.pendingIds
      · obtain ⟨r1, r2⟩ := resolveCase cid hmem
        simp only [protocolStep, if_pos hmem]
        exact ⟨r1, r2 _, fun m hm => hm, hlt⟩
      · simp only [protocolStep, if_neg hmem]
        exact ⟨hnot, trivial, fun m hm => hm, hlt⟩

/-- The step-stability properties extend to whole runs. -/
theorem protocolRun_stable (evs : List CallerEvent) (s : ProtocolSession) (R : Nat)
    (hnot : R ∉ s.pendingIds) (hlt : R < s.requestMessageId) :
    R ∉ (protocolRun evs s).pendingIds
    ∧ (protocolRun evs s).observed.filter (fun e => e.1 == R)
        = s.observed.filter (fun e => e.1 == R)
    ∧ (∀ m ∈ s.sent, m ∈ (protocolRun evs s).sent)
    ∧ R < (protocolRun evs s).requestMessageId := by
  induction evs generalizing s with
  | nil => exact ⟨hnot, rfl, fun m hm => hm, hlt⟩
  | cons ev rest ih =>
      obtain ⟨a1, a2, a3, a4⟩ := protocolStep_stable ev s R hnot hlt
      obtain ⟨b1, b2, b3, b4⟩ := ih (protocolStep ev s) a1 a4
      refine ⟨b1, ?_, fun m hm => b3 m (a3 m hm), b4⟩
      rw [show protocolRun (ev :: rest) s = protocolRun rest (protocolStep ev s) from rfl,
        b2, a2]

/-- C4: if the caller cancels request R while it is pending, the
`notifications/cancelled` message with R and the supplied reason is sent
to the peer, the caller's only observation for R over the whole run is the
cancellation failure (so no terminal response or error for R is ever
delivered, even if the peer later sends one), and R never becomes pending
again. -/
theorem cancelled_request_silence (pre post : List CallerEvent) (R : Nat) (reason : String)
    (hpend : R ∈ (protocolRun pre initialSession).pendingIds) :
    WireMsg.cancelledNote R reason
      ∈ (protocolRun (pre ++ .cancelLocally R reason :: post) initialSession).sent
    ∧ (protocolRun (pre ++ .cancelLocally R reason :: post) initialSession).observed.filter
        (fun e => e.1 == R) = [(R, .cancelledFailure reason)]
    ∧ R ∉ (protocolRun (pre ++ .cancelLocally R reason :: post) initialSession).pendingIds := by
  have hsplit : protocolRun (pre ++ .cancelLocally R reason :: post) initialSession
      = protocolRun post
          (protocolStep (.cancelLocally R reason) (protocolRun pre initialSession)) := by
    simp [protocolRun, List.foldl_append]
  obtain ⟨h1, h2, h3, -, -, -, -⟩ := protocolRun_inv pre initialSession initialSession_inv
  have hobs : (protocolRun pre initialSession).observed.filter (fun e => e.1 == R) = [] := by
    rw [List.filter_eq_nil_iff]
    intro e he
    simp only [beq_iff_eq]
    intro hR
    exact h3 R hpend e.2 (by rw [← hR]; simpa using he)
  have hR1 : R < (protocolRun pre initialSession).requestMessageId := h1 R hpend
  have s2eq : protocolStep (.cancelLocally R reason) (protocolRun pre initialSession)
      = { protocolRun pre initialSession with
          pendingIds := (protocolRun pre initialSession).pendingIds.filter (fun x => x != R),
          sent := (protocolRun pre initialSession).sent ++ [.cancelledNote R reason],
          observed := (protocolRun pre initialSession).observed
            ++ [(R, .cancelledFailure reason)] } := by
    simp [protocolStep, hpend]
  have hnot2 : R ∉ ({ protocolRun pre initialSession with
      pendingIds := (protocolRun pre initialSession).pendingIds.filter (fun x => x != R),
      sent := (protocolRun pre initialSession).sent ++ [.cancelledNote R reason],
      observed := (protocolRun pre initialSession).observed
        ++ [(R, .cancelledFailure reason)] } : ProtocolSession).pendingIds := by
    intro habs
    have := (List.mem_filter.mp habs).2
    simp at this
  rw [hsplit, s2eq]
  obtain ⟨c1, c2, c3, c4⟩ := protocolRun_stable post _ R hnot2 hR1
  refine ⟨?_, ?_, c1⟩
  · exact c3 _ (List.mem_append.mpr (Or.inr (by simp)))
  · rw [c2]
    simp only [List.filter_append, hobs, List.nil_append]
    simp

/-- Witness for C4: submit one request (id 1), cancel it, then a late
terminal result for id 1 arrives; the cancellation notification was sent,
the only observation for id 1 is the cancellation failure, and id 1 is no
longer pending. -/
theorem cancelled_request_silence_witness :
    WireMsg.cancelledNote 1 "User requested cancellation"
      ∈ (protocolRun ([.submit "tools/call"]
          ++ .cancelLocally 1 "User requested cancellation" :: [.recvResult 1 "late"])
          initialSession).sent
    ∧ (protocolRun ([.submit "tools/call"]
          ++ .cancelLocally 1 "User requested cancellation" :: [.recvResult 1 "late"])
          initialSession).observed.filter (fun e => e.1 == 1)
        = [(1, .cancelledFailure "User requested cancellation")]
    ∧ 1 ∉ (protocolRun ([.submit "tools/call"]
          ++ .cancelLocally 1 "User requested cancellation" :: [.recvResult 1 "late"])
          initialSession).pendingIds :=
  cancelled_request_silence [.submit "tools/call"] [.recvResult 1 "late"] 1
    "User requested cancellation" (by decide)

/-- C8: over any run of the session's engine, the allocated request ids
strictly increase regardless of the methods submitted, the first allocated
id is the session's initial counter value, and the id the counter would
allocate next is never one whose pending request still exists. -/
theorem request_ids_monotone (evs : List CallerEvent) :
    (protocolRun evs initialSession).allocated.Pairwise (· < ·)
    ∧ ((protocolRun evs initialSession).allocated ≠ [] →
        (protocolRun evs initialSession).allocated.head?
          = some initialSession.requestMessageId)
    ∧ (protocolRun evs initialSession).requestMessageId
        ∉ (protocolRun evs initialSession).pendingIds := by
  obtain ⟨h1, -, -, h4, -, -, h7⟩ := protocolRun_inv evs initialSession initialSession_inv
  refine ⟨h4, fun hne => h7 hne, fun hmem => ?_⟩
  have := h1 _ hmem
  omega

/-- Witness for C8: two submissions of different methods allocate the
strictly increasing ids 1 and 2, starting at the initial counter value. -/
theorem request_ids_monotone_witness :
    (protocolRun [.submit "tools/call", .submit "resources/list"]
        initialSession).allocated.Pairwise (· < ·)
    ∧ (protocolRun [.submit "tools/call", .submit "resources/list"]
        initialSession).allocated.head? = some initialSession.requestMessageId :=
  ⟨(request_ids_monotone [.submit "tools/call", .submit "resources/list"]).1,
   (request_ids_monotone [.submit "tools/call", .submit "resources/list"]).2.1 (by decide)⟩

end McpTsTests
